import Mathlib

/-!
Verification development for the MesonetMap station-fusion and
spatial-interpolation pipeline.  The definitions below are shallow
embeddings of the Python source (src/main.py, src/data/mesonet_fetcher.py,
src/utils/contour_generator.py, src/weather_maps/pressure_map.py):
floats are modelled as exact rationals, pandas cells as an explicit
raw-field datatype, and fallible row processing as Option.
-/

namespace MesonetMap

/-- Canonical station record used by the combined-map pipeline
(`main.py`): a dict with at least name, lat, lon, temp_f, pressure. -/
structure Station where
  name : String
  lat : ℚ
  lon : ℚ
  temp_f : ℚ
  pressure : ℚ
  deriving DecidableEq, Repr

/-- Banker's rounding of a rational to an integer, the rounding mode of
Python's built-in `round`: nearest integer, ties to the even integer. -/
def roundHalfEven (q : ℚ) : ℤ :=
  let f := ⌊q⌋
  let r := q - f
  if r < 1/2 then f
  else if 1/2 < r then f + 1
  else if 2 ∣ f then f else f + 1

/-- Python `round(x, 2)`: round to two decimal places, ties to even. -/
def pyRound2 (q : ℚ) : ℚ := (roundHalfEven (q * 100) : ℚ) / 100

/-- The deduplication key built in `main.py` lines 259-262:
`(round(station['lat'], 2), round(station['lon'], 2))`. -/
def locKey (s : Station) : ℚ × ℚ := (pyRound2 s.lat, pyRound2 s.lon)

/-- The loop body of the duplicate-removal pass in `main.py` lines
255-268: walk the list keeping a set of seen location keys; a station is
appended to the output iff its key has not been seen before. -/
def dedupeAux (seen : List (ℚ × ℚ)) : List Station → List Station
  | [] => []
  | s :: rest =>
    if locKey s ∈ seen then dedupeAux seen rest
    else s :: dedupeAux (locKey s :: seen) rest

/-- Duplicate-station removal of `main.py` lines 254-272, starting from
an empty seen set. -/
def removeDuplicateStations (l : List Station) : List Station :=
  dedupeAux [] l

theorem dedupeAux_sublist (seen : List (ℚ × ℚ)) (l : List Station) :
    List.Sublist (dedupeAux seen l) l := by
  induction l generalizing seen with
  | nil => simp [dedupeAux]
  | cons a t ih =>
    simp only [dedupeAux]
    split
    · exact (ih seen).cons a
    · exact (ih (locKey a :: seen)).cons₂ a

theorem dedupeAux_mem_first (seen : List (ℚ × ℚ)) (l : List Station) :
    ∀ r ∈ dedupeAux seen l,
      locKey r ∉ seen ∧
      l.find? (fun x => decide (locKey x = locKey r)) = some r := by
  induction l generalizing seen with
  | nil => intro r hr; simp [dedupeAux] at hr
  | cons a t ih =>
    intro r hr
    simp only [dedupeAux] at hr
    by_cases hk : locKey a ∈ seen
    · rw [if_pos hk] at hr
      obtain ⟨hns, hfind⟩ := ih seen r hr
      refine ⟨hns, ?_⟩
      have hne : locKey a ≠ locKey r := fun h => hns (h ▸ hk)
      rw [List.find?_cons_of_neg, hfind]
      simp [hne]
    · rw [if_neg hk] at hr
      rcases List.mem_cons.mp hr with heq | hmem
      · subst heq
        refine ⟨hk, ?_⟩
        rw [List.find?_cons_of_pos]
        simp
      · obtain ⟨hns, hfind⟩ := ih (locKey a :: seen) r hmem
        have hna : locKey r ≠ locKey a := fun h => hns (by simp [h])
        have hne : locKey a ≠ locKey r := fun h => hna h.symm
        refine ⟨fun h => hns (List.mem_cons_of_mem _ h), ?_⟩
        rw [List.find?_cons_of_neg, hfind]
        simp [hne]

theorem dedupeAux_keys_nodup (seen : List (ℚ × ℚ)) (l : List Station) :
    ((dedupeAux seen l).map locKey).Nodup := by
  induction l generalizing seen with
  | nil => simp [dedupeAux]
  | cons a t ih =>
    simp only [dedupeAux]
    split
    · exact ih seen
    · rw [List.map_cons, List.nodup_cons]
      refine ⟨?_, ih (locKey a :: seen)⟩
      intro hmem
      obtain ⟨r, hr, hkey⟩ := List.mem_map.mp hmem
      obtain ⟨hns, -⟩ := dedupeAux_mem_first (locKey a :: seen) t r hr
      exact hns (by simp [hkey])

theorem dedupeAux_covers (seen : List (ℚ × ℚ)) (l : List Station) :
    ∀ r ∈ l, locKey r ∈ seen ∨
      ∃ s ∈ dedupeAux seen l, locKey s = locKey r := by
  induction l generalizing seen with
  | nil => intro r hr; simp at hr
  | cons a t ih =>
    intro r hr
    simp only [dedupeAux]
    by_cases hk : locKey a ∈ seen
    · rw [if_pos hk]
      rcases List.mem_cons.mp hr with heq | hmem
      · exact Or.inl (heq ▸ hk)
      · exact ih seen r hmem
    · rw [if_neg hk]
      rcases List.mem_cons.mp hr with heq | hmem
      · exact Or.inr ⟨a, List.mem_cons_self a _, by rw [heq]⟩
      · rcases ih (locKey a :: seen) r hmem with hseen | ⟨s, hs, hkey⟩
        · rcases List.mem_cons.mp hseen with heq | hseen
          · exact Or.inr ⟨a, List.mem_cons_self a _, heq.symm⟩
          · exact Or.inl hseen
        · exact Or.inr ⟨s, List.mem_cons_of_mem a hs, hkey⟩

/-- C1: deduplication keeps exactly the first record for each rounded
coordinate key: the output is an in-order subsequence of the input, its
keys are pairwise distinct, every surviving record is the first input
record with its key, every input key is represented by some survivor,
and the rounded key identifies `(39.1001, -76.6002)` with
`(39.1049, -76.6041)` while separating `(39.10, -76.60)` from
`(39.12, -76.60)`. -/
theorem dedupe_keeps_first_record_per_key (l : List Station) :
    List.Sublist (removeDuplicateStations l) l ∧
    ((removeDuplicateStations l).map locKey).Nodup ∧
    (∀ r ∈ removeDuplicateStations l,
      l.find? (fun x => decide (locKey x = locKey r)) = some r) ∧
    (∀ r ∈ l, ∃ s ∈ removeDuplicateStations l, locKey s = locKey r) ∧
    locKey ⟨"a", 391001/10000, -766002/10000, 70, 1013⟩ =
      locKey ⟨"b", 391049/10000, -766041/10000, 70, 1013⟩ ∧
    locKey ⟨"c", 391/10, -383/5, 70, 1013⟩ ≠
      locKey ⟨"d", 978/25, -383/5, 70, 1013⟩ := by
  refine ⟨dedupeAux_sublist [] l, dedupeAux_keys_nodup [] l, ?_, ?_, ?_, ?_⟩
  · intro r hr
    exact (dedupeAux_mem_first [] l r hr).2
  · intro r hr
    rcases dedupeAux_covers [] l r hr with hseen | h
    · simp at hseen
    · exact h
  · norm_num [locKey, pyRound2, roundHalfEven]
  · norm_num [locKey, pyRound2, roundHalfEven]

/-- Witness for C1 at a concrete input: the surviving record of a
one-station list is found as the first key-match of the input. -/
theorem dedupe_keeps_first_record_per_key_witness :
    [(⟨"BWI", 39, -77, 70, 1013⟩ : Station)].find?
      (fun x => decide (locKey x = locKey (⟨"BWI", 39, -77, 70, 1013⟩ : Station))) =
      some ⟨"BWI", 39, -77, 70, 1013⟩ :=
  (dedupe_keeps_first_record_per_key [⟨"BWI", 39, -77, 70, 1013⟩]).2.2.1
    ⟨"BWI", 39, -77, 70, 1013⟩
    (by simp [removeDuplicateStations, dedupeAux])

/-- A raw pandas cell as seen by `_process_iowa_mesonet_data`
(`mesonet_fetcher.py`): the column can be absent from the frame, the
cell can be NaN, hold the textual missing sentinel `M`, hold some other
non-numeric text (on which `float` raises), or hold a number. -/
inductive RawField where
  | absent
  | nan
  | strM
  | junk
  | num (q : ℚ)
  deriving DecidableEq, Repr

/-- True iff the raw cell holds a parseable number. -/
def RawField.isNum : RawField → Bool
  | .num _ => true
  | _ => false

/-- One raw Iowa Environmental Mesonet ASOS row, as consumed by
`MarylandMesonetFetcher._process_iowa_mesonet_data` (lines 157-232).
`hasLatLonCols` records whether the frame has `lat`/`lon` columns. -/
structure IowaRow where
  station : String
  hasLatLonCols : Bool
  lat : RawField
  lon : RawField
  tmpf : RawField
  mslp : RawField
  alti : RawField
  drct : RawField
  sknt : RawField
  relh : RawField
  deriving DecidableEq, Repr

/-- The normalized per-station output dict of
`_process_iowa_mesonet_data` (lines 218-230); every field is present. -/
structure IowaStation where
  public_name : String
  station_id : String
  temp_f : ℚ
  pressure : ℚ
  humidity : ℚ
  wind_speed : ℚ
  wind_dir : ℚ
  latitude : ℚ
  longitude : ℚ
  deriving DecidableEq, Repr

/-- The `md_asos_coords` lookup table of
`MarylandMesonetFetcher._get_station_coordinates` (lines 253-265). -/
def mdAsosCoords : List (String × ℚ × ℚ) :=
  [("BWI", (391754/10000, -766683/10000)),
   ("DCA", (388512/10000, -770402/10000)),
   ("IAD", (389531/10000, -774565/10000)),
   ("ADW", (388108/10000, -768669/10000)),
   ("HGR", (397078/10000, -777297/10000)),
   ("SBY", (383408/10000, -755100/10000)),
   ("APG", (394669/10000, -761686/10000)),
   ("FDK", (394175/10000, -773739/10000)),
   ("GAI", (391683/10000, -771661/10000)),
   ("MTN", (393250/10000, -764147/10000)),
   ("ESN", (388042/10000, -760467/10000))]

/-- The lookup `_get_station_coordinates` (lines 248-273): look the station id up
in the table, defaulting to central Maryland `(39.0, -77.0)`. -/
def getStationCoordinates (id : String) : ℚ × ℚ :=
  ((mdAsosCoords.find? (fun p => p.1 == id)).map Prod.snd).getD (39, -77)

/-- The guarded field read used for `tmpf`, `relh` and `drct`
(lines 171-177, 194-200, 210-216): the guard
`col in df.columns and pd.notna(cell) and cell != 'M'` followed by a
`float(...)` in a try/except; every non-numeric outcome yields the
default. -/
def fieldOrDefault (f : RawField) (d : ℚ) : ℚ :=
  match f with
  | .num q => q
  | _ => d

/-- The wind-speed read (lines 202-208, 224): `sknt` is converted from
knots to mph by `* 1.15078` when it parses, else the record takes the
default 5.0. -/
def windSpeedOrDefault (f : RawField) : ℚ :=
  match f with
  | .num q => q * (115078/100000)
  | _ => 5

/-- The pressure chain of `_process_iowa_mesonet_data` lines 179-192:
`if mslp` present, non-NaN and not `'M'`, `float` it (an unparseable
cell lands in the except branch and yields 1013.25 without consulting
`alti`); `elif alti` passes the same guard, convert inches Hg to hPa by
`* 33.863886`; otherwise 1013.25. -/
def iowaPressure (mslp alti : RawField) : ℚ :=
  match mslp with
  | .num q => q
  | .junk => 101325/100
  | _ =>
    match alti with
    | .num q => q * (33863886/1000000)
    | .junk => 101325/100
    | _ => 101325/100

/-- Coordinate resolution of lines 161-169 combined with the per-row
try/except of lines 157-236: with `lat`/`lon` columns, a NaN cell gives
`None` (then the `if not latitude or not longitude` falsiness test
skips the row, which also fires on a coordinate equal to 0.0) and a
textual cell makes `float` raise, skipping the row; without the
columns, the static lookup supplies coordinates. -/
def resolveCoords (r : IowaRow) : Option (ℚ × ℚ) :=
  if r.hasLatLonCols then
    match r.lat, r.lon with
    | .num a, .num b => if a = 0 ∨ b = 0 then none else some (a, b)
    | _, _ => none
  else
    let c := getStationCoordinates r.station
    if c.1 = 0 ∨ c.2 = 0 then none else some c

/-- The whole per-row body of `_process_iowa_mesonet_data`
(lines 157-232): resolve coordinates (skipping the row when they do not
resolve), then build the station dict with per-field defaults
70.0 °F, 1013.25 hPa, 65.0 %, 5.0 mph and 270.0°. -/
def processIowaRow (r : IowaRow) : Option IowaStation :=
  match resolveCoords r with
  | none => none
  | some (la, lo) =>
    some { public_name := "MD ASOS " ++ r.station
           station_id := r.station
           temp_f := fieldOrDefault r.tmpf 70
           pressure := iowaPressure r.mslp r.alti
           humidity := fieldOrDefault r.relh 65
           wind_speed := windSpeedOrDefault r.sknt
           wind_dir := fieldOrDefault r.drct 270
           latitude := la
           longitude := lo }

/-- The Maryland temperature block of
`load_maryland_data_from_file` (`main.py` lines 618-627): a NaN cell
defaults to 70.0; a value below 50 is treated as Celsius and converted
by `F = C*9/5 + 32`; a value of 50 or more passes through. -/
def loadMarylandTempF (t : Option ℚ) : ℚ :=
  match t with
  | some c => if c < 50 then c * 9/5 + 32 else c
  | none => 70

/-- The Pennsylvania temperature block of
`load_pennsylvania_data_from_file` (`main.py` lines 727-735): a missing
cell stays `None`; a value below 40 is treated as Celsius and
converted; a value of 40 or more passes through. -/
def loadPennsylvaniaTempF (t : Option ℚ) : Option ℚ :=
  match t with
  | some v => if v < 40 then some (v * 9/5 + 32) else some v
  | none => none

lemma fieldOrDefault_of_not_num (f : RawField) (d : ℚ) (hf : f.isNum = false) :
    fieldOrDefault f d = d := by
  cases f with
  | num q => simp [RawField.isNum] at hf
  | absent => rfl
  | nan => rfl
  | strM => rfl
  | junk => rfl

lemma windSpeedOrDefault_of_not_num (f : RawField) (hf : f.isNum = false) :
    windSpeedOrDefault f = 5 := by
  cases f with
  | num q => simp [RawField.isNum] at hf
  | absent => rfl
  | nan => rfl
  | strM => rfl
  | junk => rfl

lemma iowaPressure_of_not_num (mslp alti : RawField) (hm : mslp.isNum = false)
    (ha : alti.isNum = false) : iowaPressure mslp alti = 101325/100 := by
  cases mslp with
  | num q => exact absurd hm (by simp [RawField.isNum])
  | junk => rfl
  | absent =>
    cases alti with
    | num q => exact absurd ha (by simp [RawField.isNum])
    | absent => rfl
    | nan => rfl
    | strM => rfl
    | junk => rfl
  | nan =>
    cases alti with
    | num q => exact absurd ha (by simp [RawField.isNum])
    | absent => rfl
    | nan => rfl
    | strM => rfl
    | junk => rfl
  | strM =>
    cases alti with
    | num q => exact absurd ha (by simp [RawField.isNum])
    | absent => rfl
    | nan => rfl
    | strM => rfl
    | junk => rfl

lemma processIowaRow_fields (r : IowaRow) (st : IowaStation)
    (h : processIowaRow r = some st) :
    st.temp_f = fieldOrDefault r.tmpf 70 ∧
    st.pressure = iowaPressure r.mslp r.alti ∧
    st.humidity = fieldOrDefault r.relh 65 ∧
    st.wind_speed = windSpeedOrDefault r.sknt ∧
    st.wind_dir = fieldOrDefault r.drct 270 := by
  rw [processIowaRow] at h
  rcases hres : resolveCoords r with - | ⟨la, lo⟩ <;> rw [hres] at h
  · simp at h
  · simp only [Option.some_inj] at h
    subst h
    exact ⟨rfl, rfl, rfl, rfl, rfl⟩

/-- C4 counterexample: on the Pennsylvania normalization path the
conversion threshold is 40, not 50, so the value 49.9 passes through
unconverted although the claim requires it to be converted on every
source path. -/
theorem pa_temp_49_9_not_converted :
    loadPennsylvaniaTempF (some (499/10)) = some (499/10) ∧
    (499/10 : ℚ) * 9/5 + 32 ≠ (499/10 : ℚ) := by
  constructor
  · rw [loadPennsylvaniaTempF, if_neg]
    norm_num
  · norm_num

/-- C4 amended: the `< 50 → Celsius` rule holds on the Maryland path
(50 passes through, anything below 50 is converted by `F = C*9/5+32`),
while the Pennsylvania path applies the same rule with threshold 40; a
NaN Maryland temperature defaults to 70. -/
theorem temperature_conversion_thresholds (v : ℚ) :
    (v < 50 → loadMarylandTempF (some v) = v * 9/5 + 32) ∧
    (50 ≤ v → loadMarylandTempF (some v) = v) ∧
    (v < 40 → loadPennsylvaniaTempF (some v) = some (v * 9/5 + 32)) ∧
    (40 ≤ v → loadPennsylvaniaTempF (some v) = some v) ∧
    loadMarylandTempF none = 70 := by
  refine ⟨fun h => ?_, fun h => ?_, fun h => ?_, fun h => ?_, rfl⟩
  · rw [loadMarylandTempF, if_pos h]
  · rw [loadMarylandTempF, if_neg (not_lt.mpr h)]
  · rw [loadPennsylvaniaTempF, if_pos h]
  · rw [loadPennsylvaniaTempF, if_neg (not_lt.mpr h)]

/-- Witness for C4 at the boundary inputs: 49.9 is converted on the
Maryland path and 50 passes through on the Maryland path. -/
theorem temperature_conversion_thresholds_witness :
    loadMarylandTempF (some (499/10)) = (499/10 : ℚ) * 9/5 + 32 ∧
    loadMarylandTempF (some 50) = 50 :=
  ⟨(temperature_conversion_thresholds (499/10)).1 (by norm_num),
   (temperature_conversion_thresholds 50).2.1 (by norm_num)⟩

/-- A raw row whose only usable optional field is the altimeter
setting 29.92 inHg; `mslp` is an absent key. -/
def altiOnlyRow : IowaRow :=
  ⟨"BWI", true, .num 39, .num (-77), .absent, .absent, .num (2992/100),
   .absent, .absent, .absent⟩

/-- C5 counterexample: a record whose sea-level-pressure raw value is an
absent key does not get the documented default 1013.25 when an
altimeter setting is available; it gets the altimeter-derived pressure
instead. -/
theorem pressure_default_preempted_by_altimeter :
    altiOnlyRow.mslp = RawField.absent ∧
    (processIowaRow altiOnlyRow).map IowaStation.pressure =
      some ((2992/100 : ℚ) * (33863886/1000000)) ∧
    ((2992/100 : ℚ) * (33863886/1000000)) ≠ (101325/100 : ℚ) := by
  refine ⟨rfl, ?_, by norm_num⟩
  have h39 : ¬((39 : ℚ) = 0 ∨ (-77 : ℚ) = 0) := by norm_num
  simp [processIowaRow, resolveCoords, altiOnlyRow, iowaPressure, h39]

/-- C5 amended: every optional field whose raw value is missing (absent
key, NaN, the `M` sentinel) or unparseable takes its documented default
(70.0 °F, 65.0 %, 5.0 mph, 270.0°), and pressure takes its default
1013.25 when the altimeter setting is also unusable. -/
theorem missing_fields_get_documented_defaults (r : IowaRow) (st : IowaStation)
    (h : processIowaRow r = some st) :
    (r.tmpf.isNum = false → st.temp_f = 70) ∧
    (r.relh.isNum = false → st.humidity = 65) ∧
    (r.sknt.isNum = false → st.wind_speed = 5) ∧
    (r.drct.isNum = false → st.wind_dir = 270) ∧
    (r.mslp.isNum = false → r.alti.isNum = false →
      st.pressure = 101325/100) := by
  obtain ⟨ht, hp, hh, hw, hd⟩ := processIowaRow_fields r st h
  exact ⟨fun h1 => ht.trans (fieldOrDefault_of_not_num _ _ h1),
         fun h1 => hh.trans (fieldOrDefault_of_not_num _ _ h1),
         fun h1 => hw.trans (windSpeedOrDefault_of_not_num _ h1),
         fun h1 => hd.trans (fieldOrDefault_of_not_num _ _ h1),
         fun h1 h2 => hp.trans (iowaPressure_of_not_num _ _ h1 h2)⟩

/-- A raw row with coordinates but every optional field set to the `M`
missing sentinel. -/
def mdAllMissingRow : IowaRow :=
  ⟨"BWI", true, .num 39, .num (-77), .strM, .strM, .strM, .strM, .strM, .strM⟩

/-- The station record produced for `mdAllMissingRow`: all defaults. -/
def mdAllMissingStation : IowaStation :=
  ⟨"MD ASOS " ++ "BWI", "BWI", 70, 101325/100, 65, 5, 270, 39, -77⟩

/-- Witness for C5: the all-missing raw observation yields exactly the
documented defaults. -/
theorem missing_fields_get_documented_defaults_witness :
    processIowaRow mdAllMissingRow = some mdAllMissingStation ∧
    mdAllMissingStation.temp_f = 70 ∧ mdAllMissingStation.humidity = 65 ∧
    mdAllMissingStation.wind_speed = 5 ∧ mdAllMissingStation.wind_dir = 270 ∧
    mdAllMissingStation.pressure = 101325/100 := by
  have h : processIowaRow mdAllMissingRow = some mdAllMissingStation := by
    have h39 : ¬((39 : ℚ) = 0 ∨ (-77 : ℚ) = 0) := by norm_num
    simp [processIowaRow, resolveCoords, mdAllMissingRow, mdAllMissingStation,
      fieldOrDefault, windSpeedOrDefault, iowaPressure, h39]
  obtain ⟨h1, h2, h3, h4, h5⟩ :=
    missing_fields_get_documented_defaults mdAllMissingRow mdAllMissingStation h
  exact ⟨h, h1 rfl, h2 rfl, h3 rfl, h4 rfl, h5 rfl rfl⟩

/-- A raw row whose `mslp` cell is unparseable text and whose altimeter
setting is 29.92 inHg. -/
def junkMslpRow : IowaRow :=
  ⟨"BWI", true, .num 39, .num (-77), .absent, .junk, .num (2992/100),
   .absent, .absent, .absent⟩

/-- C6 counterexample: when the sea-level-pressure cell is present and
non-missing but fails to parse, the code lands in the except branch and
takes the default 1013.25 without consulting the altimeter, although
the claim requires the altimeter-derived value in that case. -/
theorem unparseable_mslp_skips_altimeter :
    junkMslpRow.alti = RawField.num (2992/100) ∧
    (processIowaRow junkMslpRow).map IowaStation.pressure =
      some (101325/100 : ℚ) ∧
    ((2992/100 : ℚ) * (33863886/1000000)) ≠ (101325/100 : ℚ) := by
  refine ⟨rfl, ?_, by norm_num⟩
  have h39 : ¬((39 : ℚ) = 0 ∨ (-77 : ℚ) = 0) := by norm_num
  simp [processIowaRow, resolveCoords, junkMslpRow, iowaPressure, h39]

/-- C6 amended: the normalized pressure equals the parsed `mslp` value
when that cell parses; an unparseable `mslp` cell yields the default
1013.25 directly, and the altimeter branch (hPa = inHg * 33.863886) is
consulted only when `mslp` is an absent key, NaN or the `M` sentinel;
when the altimeter is also unusable the default 1013.25 applies. -/
theorem pressure_preference_chain (r : IowaRow) (st : IowaStation)
    (h : processIowaRow r = some st) :
    (∀ q, r.mslp = RawField.num q → st.pressure = q) ∧
    (r.mslp = RawField.junk → st.pressure = 101325/100) ∧
    ((r.mslp = RawField.absent ∨ r.mslp = RawField.nan ∨ r.mslp = RawField.strM) →
      ∀ q, r.alti = RawField.num q → st.pressure = q * (33863886/1000000)) ∧
    ((r.mslp = RawField.absent ∨ r.mslp = RawField.nan ∨ r.mslp = RawField.strM) →
      r.alti.isNum = false → st.pressure = 101325/100) := by
  obtain ⟨-, hp, -, -, -⟩ := processIowaRow_fields r st h
  refine ⟨?_, ?_, ?_, ?_⟩
  · intro q hq
    rw [hp, hq]
    rfl
  · intro hq
    rw [hp, hq]
    rfl
  · intro hm q hq
    rcases hm with h1 | h1 | h1 <;> rw [hp, h1, hq] <;> rfl
  · intro hm ha
    rcases hm with h1 | h1 | h1 <;> rw [hp] <;>
      exact iowaPressure_of_not_num _ _ (by rw [h1]; rfl) ha

/-- A raw row with a directly reported sea-level pressure of 1015. -/
def mslpRow : IowaRow :=
  ⟨"BWI", true, .num 39, .num (-77), .absent, .num 1015, .absent,
   .absent, .absent, .absent⟩

/-- The station record produced for `mslpRow`. -/
def mslpStation : IowaStation :=
  ⟨"MD ASOS " ++ "BWI", "BWI", 70, 1015, 65, 5, 270, 39, -77⟩

/-- Witness for C6: a parseable `mslp` of 1015 is taken verbatim. -/
theorem pressure_preference_chain_witness :
    processIowaRow mslpRow = some mslpStation ∧ mslpStation.pressure = 1015 := by
  have h : processIowaRow mslpRow = some mslpStation := by
    have h39 : ¬((39 : ℚ) = 0 ∨ (-77 : ℚ) = 0) := by norm_num
    simp [processIowaRow, resolveCoords, mslpRow, mslpStation,
      fieldOrDefault, windSpeedOrDefault, iowaPressure, h39]
  exact ⟨h, (pressure_preference_chain mslpRow mslpStation h).1 1015 rfl⟩

/-- A raw row whose latitude cell holds the number 0.0 and whose
longitude is a valid -77. -/
def zeroLatRow : IowaRow :=
  ⟨"EQX", true, .num 0, .num (-77), .absent, .absent, .absent,
   .absent, .absent, .absent⟩

/-- C7 counterexample: a row whose latitude is present and numeric but
equal to 0.0 is discarded (`if not latitude` treats 0.0 as falsy), so
presence of valid-looking numeric coordinates is not the exact discard
criterion claimed. -/
theorem zero_latitude_discarded :
    zeroLatRow.lat = RawField.num 0 ∧ processIowaRow zeroLatRow = none := by
  refine ⟨rfl, ?_⟩
  simp [processIowaRow, resolveCoords, zeroLatRow]

/-- True iff the raw cell holds a number other than zero: the condition
under which a coordinate cell survives both `float` parsing and the
`if not latitude or not longitude` falsiness test. -/
def isNumNonzero : RawField → Bool
  | .num q => decide (q ≠ 0)
  | _ => false

lemma getStationCoordinates_nonzero (id : String) :
    (getStationCoordinates id).1 ≠ 0 ∧ (getStationCoordinates id).2 ≠ 0 := by
  have htab : ∀ p ∈ mdAsosCoords, p.2.1 ≠ 0 ∧ p.2.2 ≠ 0 := by
    intro p hp
    fin_cases hp <;> exact ⟨by norm_num, by norm_num⟩
  rw [getStationCoordinates]
  rcases hf : mdAsosCoords.find? (fun p => p.1 == id) with - | p
  · rw [hf]
    exact ⟨by norm_num, by norm_num⟩
  · rw [hf]
    simpa using htab p (List.mem_of_find?_eq_some hf)

/-- C7 amended: on the lookup path (no lat/lon columns) a row is never
discarded, because the static table and its central-Maryland fallback
only produce nonzero coordinates; on the column path a row survives iff
both coordinate cells parse as nonzero numbers — a missing, textual, or
zero coordinate is discarded. -/
theorem discard_iff_unresolvable_coordinates (r : IowaRow) :
    (r.hasLatLonCols = false → (processIowaRow r).isSome = true) ∧
    (r.hasLatLonCols = true →
      (processIowaRow r).isSome = (isNumNonzero r.lat && isNumNonzero r.lon)) := by
  obtain ⟨s, cols, lat, lon, tm, ms, al, dr, sk, rh⟩ := r
  constructor
  · intro hc
    obtain ⟨h1, h2⟩ := getStationCoordinates_nonzero s
    simp only at hc
    subst hc
    rw [processIowaRow, resolveCoords]
    simp only [Bool.false_eq_true, if_false]
    rw [if_neg (by simp [h1, h2])]
    rfl
  · intro hc
    simp only at hc
    subst hc
    rw [processIowaRow, resolveCoords]
    simp only [if_true]
    cases lat <;> cases lon <;>
      first
        | (simp [isNumNonzero]; done)
        | (rename_i a b
           by_cases ha : a = 0
           · simp [isNumNonzero, ha]
           · by_cases hb : b = 0
             · simp [isNumNonzero, ha, hb]
             · simp [isNumNonzero, ha, hb])

/-- A raw row from a frame without lat/lon columns. -/
def lookupRow : IowaRow :=
  ⟨"HGR", false, .absent, .absent, .absent, .absent, .absent,
   .absent, .absent, .absent⟩

/-- A raw row from a frame with lat/lon columns and NaN coordinates. -/
def nanCoordRow : IowaRow :=
  ⟨"XYZ", true, .nan, .nan, .absent, .absent, .absent,
   .absent, .absent, .absent⟩

/-- Witness for C7: the lookup-path row survives, and the NaN-coordinate
row on the column path is discarded. -/
theorem discard_iff_unresolvable_coordinates_witness :
    (processIowaRow lookupRow).isSome = true ∧
    (processIowaRow nanCoordRow).isSome =
      (isNumNonzero nanCoordRow.lat && isNumNonzero nanCoordRow.lon) :=
  ⟨(discard_iff_unresolvable_coordinates lookupRow).1 rfl,
   (discard_iff_unresolvable_coordinates nanCoordRow).2 rfl⟩

/-- Minimum of a list of rationals, the embedding of `min(xs)` /
`xs.min()` on a nonempty sequence (the empty case is never reached by
the callers, which guard emptiness first). -/
def qMin : List ℚ → ℚ
  | [] => 0
  | a :: t => t.foldl min a

/-- Maximum of a list of rationals, the embedding of `max(xs)` /
`xs.max()`. -/
def qMax : List ℚ → ℚ
  | [] => 0
  | a :: t => t.foldl max a

/-- Embedding of `np.linspace(a, b, n)`: n samples from a to b inclusive, evenly
spaced by `(b - a)/(n - 1)`. -/
def linspace (a b : ℚ) (n : ℕ) : List ℚ :=
  (List.range n).map (fun (i : ℕ) => a + (b - a) * (i : ℚ) / ((n : ℚ) - 1))

/-- An interpolation-grid specification: the rectangular bounding box
and the two axis vectors produced by `np.linspace`. -/
structure GridSpec where
  latMin : ℚ
  latMax : ℚ
  lonMin : ℚ
  lonMax : ℚ
  gridLat : List ℚ
  gridLon : List ℚ
  deriving DecidableEq, Repr

/-- The grid set up by `create_combined_weather_map_centered_rockville`
(`main.py` lines 322, 356-363): `None` for an empty station list,
otherwise the stations' coordinate extent expanded by 0.5° with 80
nodes per axis. -/
def mainMapGridSpec (l : List Station) : Option GridSpec :=
  if l = [] then none
  else
    some { latMin := qMin (l.map Station.lat) - 1/2
           latMax := qMax (l.map Station.lat) + 1/2
           lonMin := qMin (l.map Station.lon) - 1/2
           lonMax := qMax (l.map Station.lon) + 1/2
           gridLat := linspace (qMin (l.map Station.lat) - 1/2)
             (qMax (l.map Station.lat) + 1/2) 80
           gridLon := linspace (qMin (l.map Station.lon) - 1/2)
             (qMax (l.map Station.lon) + 1/2) 80 }

/-- The grid set up by `generate_contour_data`
(`contour_generator.py` lines 1-19): `None` when fewer than 4 stations
are supplied, otherwise the coordinate extent expanded by 2° with 100
nodes per axis. -/
def generateContourDataSpec (l : List Station) : Option GridSpec :=
  if l.length < 4 then none
  else
    some { latMin := qMin (l.map Station.lat) - 2
           latMax := qMax (l.map Station.lat) + 2
           lonMin := qMin (l.map Station.lon) - 2
           lonMax := qMax (l.map Station.lon) + 2
           gridLat := linspace (qMin (l.map Station.lat) - 2)
             (qMax (l.map Station.lat) + 2) 100
           gridLon := linspace (qMin (l.map Station.lon) - 2)
             (qMax (l.map Station.lon) + 2) 100 }

/-- The fixed continental-US grid of `create_pressure_contour_overlay`
(`pressure_map.py` lines 77-84): latitude 24-50, longitude -125 to -66,
120 x 160 nodes, independent of the input stations. -/
def continentalSpec : GridSpec :=
  { latMin := 24
    latMax := 50
    lonMin := -125
    lonMax := -66
    gridLat := linspace 24 50 120
    gridLon := linspace (-125) (-66) 160 }

/-- The gate of `create_pressure_contour_overlay` (`pressure_map.py` lines 66-84):
`None` when fewer than 4 stations are supplied, otherwise the fixed
continental grid. -/
def pressureOverlaySpec (l : List Station) : Option GridSpec :=
  if l.length < 4 then none else some continentalSpec

/-- C2: the contour generators return no grid exactly when fewer than 4
stations are supplied; since every normalized record carries every
scalar field, the count of stations carrying the requested field equals
the list length. -/
theorem insufficient_data_iff_fewer_than_four (l : List Station) :
    (generateContourDataSpec l = none ↔ l.length < 4) ∧
    (pressureOverlaySpec l = none ↔ l.length < 4) := by
  constructor
  · rw [generateContourDataSpec]
    split
    · next hc => exact ⟨fun _ => hc, fun _ => rfl⟩
    · next hc => exact ⟨fun h => absurd h (by simp), fun h => absurd h hc⟩
  · rw [pressureOverlaySpec]
    split
    · next hc => exact ⟨fun _ => hc, fun _ => rfl⟩
    · next hc => exact ⟨fun h => absurd h (by simp), fun h => absurd h hc⟩

/-- Witness for C2: the empty station list yields no grid. -/
theorem insufficient_data_iff_fewer_than_four_witness :
    generateContourDataSpec [] = none :=
  ((insufficient_data_iff_fewer_than_four []).1).mpr (by decide)

lemma linspace_length (a b : ℚ) (n : ℕ) : (linspace a b n).length = n := by
  rw [linspace, List.length_map, List.length_range]

lemma linspace_head (a b : ℚ) (n : ℕ) (hn : 0 < n) :
    (linspace a b n)[0]? = some a := by
  simp [linspace, List.getElem?_range, hn]

lemma linspace_last (a b : ℚ) (n : ℕ) (hn : 2 ≤ n) :
    (linspace a b n)[(linspace a b n).length - 1]? = some b := by
  have h1 : (1 : ℕ) ≤ n := le_trans (by norm_num) hn
  have hlt : n - 1 < n := by omega
  have hne : (n : ℚ) - 1 ≠ 0 := by
    have h2 : (2 : ℚ) ≤ (n : ℚ) := by exact_mod_cast hn
    linarith
  rw [linspace_length]
  simp only [linspace, List.getElem?_map, List.getElem?_range, hlt, if_pos,
    Option.map_some']
  congr 1
  rw [Nat.cast_sub h1, Nat.cast_one, mul_div_assoc, div_self hne, mul_one]
  ring

/-- The even-spacing property of an axis vector: each node exceeds its
predecessor by the constant step d. -/
def evenStep (xs : List ℚ) (d : ℚ) : Prop :=
  ∀ i, (h : i + 1 < xs.length) →
    xs.get ⟨i + 1, h⟩ = xs.get ⟨i, Nat.lt_of_succ_lt h⟩ + d

lemma linspace_evenStep (a b : ℚ) (n : ℕ) :
    evenStep (linspace a b n) ((b - a) / ((n : ℚ) - 1)) := by
  intro i h
  simp only [linspace, List.get_eq_getElem, List.getElem_map, List.getElem_range]
  push_cast
  ring

/-- Stations for the C9 counterexample: four identical records, so the
observed latitude extent is the single point 39. -/
def flatStations : List Station := List.replicate 4 ⟨"flat", 39, -77, 70, 1013⟩

/-- C9 counterexample: the continental pressure overlay uses the fixed
box 24-50 even for stations whose whole latitude extent is 39, and no
single margin m satisfies 24 = 39 - m and 50 = 39 + m, so its bounding
box is not the station extent expanded by a fixed margin. -/
theorem continental_box_independent_of_stations :
    pressureOverlaySpec flatStations = some continentalSpec ∧
    qMin (flatStations.map Station.lat) = 39 ∧
    qMax (flatStations.map Station.lat) = 39 ∧
    ¬ ∃ m : ℚ, continentalSpec.latMin = 39 - m ∧
      continentalSpec.latMax = 39 + m := by
  refine ⟨?_, ?_, ?_, ?_⟩
  · rw [pressureOverlaySpec, if_neg (by decide)]
  · simp [qMin, flatStations, List.replicate, min_self]
  · simp [qMax, flatStations, List.replicate, max_self]
  · rintro ⟨m, h1, h2⟩
    simp only [continentalSpec] at h1 h2
    linarith

/-- C9 amended: the data-dependent grids satisfy the claim — the main
map's box is the station extent expanded by the fixed margin 0.5° with
80 evenly spaced nodes per axis running from box minimum to box
maximum — while the continental overlay instead uses a fixed box
independent of the stations. -/
theorem grid_bbox_and_axes (l : List Station) (spec : GridSpec)
    (h : mainMapGridSpec l = some spec) :
    spec.latMin = qMin (l.map Station.lat) - 1/2 ∧
    spec.latMax = qMax (l.map Station.lat) + 1/2 ∧
    spec.lonMin = qMin (l.map Station.lon) - 1/2 ∧
    spec.lonMax = qMax (l.map Station.lon) + 1/2 ∧
    spec.gridLat.length = 80 ∧ spec.gridLon.length = 80 ∧
    spec.gridLat[0]? = some spec.latMin ∧
    spec.gridLat[spec.gridLat.length - 1]? = some spec.latMax ∧
    spec.gridLon[0]? = some spec.lonMin ∧
    spec.gridLon[spec.gridLon.length - 1]? = some spec.lonMax ∧
    evenStep spec.gridLat ((spec.latMax - spec.latMin) / ((80 : ℚ) - 1)) ∧
    evenStep spec.gridLon ((spec.lonMax - spec.lonMin) / ((80 : ℚ) - 1)) ∧
    (4 ≤ l.length → pressureOverlaySpec l = some continentalSpec) := by
  rw [mainMapGridSpec] at h
  split at h
  · simp at h
  · rw [Option.some_inj] at h
    subst h
    have hstep1 := linspace_evenStep (qMin (l.map Station.lat) - 1/2)
      (qMax (l.map Station.lat) + 1/2) 80
    have hstep2 := linspace_evenStep (qMin (l.map Station.lon) - 1/2)
      (qMax (l.map Station.lon) + 1/2) 80
    have hcast : ((80 : ℕ) : ℚ) = (80 : ℚ) := by norm_num
    rw [hcast] at hstep1 hstep2
    refine ⟨rfl, rfl, rfl, rfl, linspace_length _ _ _, linspace_length _ _ _,
      linspace_head _ _ _ (by norm_num), linspace_last _ _ _ (by norm_num),
      linspace_head _ _ _ (by norm_num), linspace_last _ _ _ (by norm_num),
      hstep1, hstep2, fun hc => ?_⟩
    rw [pressureOverlaySpec, if_neg (Nat.not_lt.mpr hc)]

/-- Four distinct stations used as a concrete C9 witness input. -/
def demoStations : List Station :=
  [⟨"d1", 39, -77, 70, 1013⟩, ⟨"d2", 40, -76, 71, 1014⟩,
   ⟨"d3", 41, -75, 72, 1015⟩, ⟨"d4", 42, -74, 73, 1016⟩]

/-- The grid the main map builds for `demoStations`. -/
def demoSpec : GridSpec :=
  { latMin := qMin (demoStations.map Station.lat) - 1/2
    latMax := qMax (demoStations.map Station.lat) + 1/2
    lonMin := qMin (demoStations.map Station.lon) - 1/2
    lonMax := qMax (demoStations.map Station.lon) + 1/2
    gridLat := linspace (qMin (demoStations.map Station.lat) - 1/2)
      (qMax (demoStations.map Station.lat) + 1/2) 80
    gridLon := linspace (qMin (demoStations.map Station.lon) - 1/2)
      (qMax (demoStations.map Station.lon) + 1/2) 80 }

/-- Witness for C9: the four-station demo input produces a grid whose
latitude axis has 80 nodes, and the continental overlay accepts it. -/
theorem grid_bbox_and_axes_witness :
    mainMapGridSpec demoStations = some demoSpec ∧
    demoSpec.gridLat.length = 80 ∧
    pressureOverlaySpec demoStations = some continentalSpec := by
  have h : mainMapGridSpec demoStations = some demoSpec := rfl
  have hx := grid_bbox_and_axes demoStations demoSpec h
  exact ⟨h, hx.2.2.2.2.1, hx.2.2.2.2.2.2.2.2.2.2.2.2 (by decide)⟩

/-- Python `int()` on a rational: truncation toward zero. -/
def truncInt (q : ℚ) : ℤ := if 0 ≤ q then ⌊q⌋ else ⌈q⌉

/-- Embedding of `np.arange(a, b, 2)` on integral endpoints: a, a+2, a+4, ...,
strictly below b. -/
def npArangeStep2 (a b : ℤ) : List ℤ :=
  (List.range (((b - a).toNat + 1) / 2)).map (fun (i : ℕ) => a + 2 * (i : ℤ))

/-- The 2 hPa contour-level selection of `main.py` lines 370-373:
`pressure_min = int(min/2)*2`, `pressure_max = int(max/2)*2 + 2`,
`levels = np.arange(pressure_min, pressure_max + 1, 2)`. -/
def pressureLevels (pmin pmax : ℚ) : List ℤ :=
  npArangeStep2 (truncInt (pmin / 2) * 2) (truncInt (pmax / 2) * 2 + 2 + 1)

lemma truncInt_of_nonneg (q : ℚ) (h : 0 ≤ q) : truncInt q = ⌊q⌋ := if_pos h

/-- The even-spacing property for an integer level sequence. -/
def evenStepInt (xs : List ℤ) (d : ℤ) : Prop :=
  ∀ i, (h : i + 1 < xs.length) →
    xs.get ⟨i + 1, h⟩ = xs.get ⟨i, Nat.lt_of_succ_lt h⟩ + d

/-- C3 counterexample: for the observed range [1008.3, 1019.7] with
interval 2 the produced levels end at 1020, not at the claimed
`ceil(max/interval)*interval + interval = 1022`. -/
theorem levels_end_not_ceil_counterexample :
    (pressureLevels (10083/10) (10197/10)).getLast? = some 1020 ∧
    (⌈(10197/10 : ℚ) / 2⌉ * 2 + 2 : ℤ) = 1022 ∧ (1020 : ℤ) ≠ 1022 := by
  have h1 : truncInt ((10083/10 : ℚ) / 2) = 504 := by
    rw [truncInt_of_nonneg _ (by norm_num)]
    norm_num
  have h2 : truncInt ((10197/10 : ℚ) / 2) = 509 := by
    rw [truncInt_of_nonneg _ (by norm_num)]
    norm_num
  have hc : (⌈(10197/10 : ℚ) / 2⌉ : ℤ) = 510 := by
    rw [Int.ceil_eq_iff]
    constructor <;> norm_num
  refine ⟨?_, by rw [hc]; norm_num, by norm_num⟩
  rw [pressureLevels, h1, h2]
  decide

/-- C3 amended: for a nonnegative observed range the 2 hPa level
selector produces an arithmetic sequence with step exactly 2 that
starts at `floor(min/2)*2` and ends at `floor(max/2)*2 + 2` inclusive
(so the first level is at or below the minimum and the last level is
strictly above the maximum). -/
theorem pressure_levels_arithmetic_progression (pmin pmax : ℚ)
    (h0 : 0 ≤ pmin) (hle : pmin ≤ pmax) :
    (pressureLevels pmin pmax)[0]? = some (⌊pmin / 2⌋ * 2) ∧
    (pressureLevels pmin pmax)[(pressureLevels pmin pmax).length - 1]? =
      some (⌊pmax / 2⌋ * 2 + 2) ∧
    evenStepInt (pressureLevels pmin pmax) 2 ∧
    ((⌊pmin / 2⌋ * 2 : ℤ) : ℚ) ≤ pmin ∧
    pmax ≤ ((⌊pmax / 2⌋ * 2 + 2 : ℤ) : ℚ) := by
  have e1 : truncInt (pmin / 2) = ⌊pmin / 2⌋ :=
    truncInt_of_nonneg _ (by positivity)
  have e2 : truncInt (pmax / 2) = ⌊pmax / 2⌋ :=
    truncInt_of_nonneg _ (div_nonneg (h0.trans hle) (by norm_num))
  have hk : ⌊pmin / 2⌋ ≤ ⌊pmax / 2⌋ :=
    Int.floor_le_floor (by linarith)
  have hlen : (pressureLevels pmin pmax).length =
      (⌊pmax / 2⌋ - ⌊pmin / 2⌋).toNat + 2 := by
    rw [pressureLevels, e1, e2, npArangeStep2, List.length_map,
      List.length_range]
    omega
  refine ⟨?_, ?_, ?_, ?_, ?_⟩
  · rw [pressureLevels, e1, e2, npArangeStep2]
    have hpos : 0 < (((⌊pmax / 2⌋ * 2 + 2 + 1) - ⌊pmin / 2⌋ * 2).toNat + 1) / 2 := by
      omega
    simp [List.getElem?_range, hpos]
  · rw [hlen]
    rw [pressureLevels, e1, e2, npArangeStep2]
    have hidx : (⌊pmax / 2⌋ - ⌊pmin / 2⌋).toNat + 2 - 1 <
        (((⌊pmax / 2⌋ * 2 + 2 + 1) - ⌊pmin / 2⌋ * 2).toNat + 1) / 2 := by
      omega
    simp only [List.getElem?_map, List.getElem?_range, hidx, if_pos,
      Option.map_some']
    congr 1
    omega
  · rw [pressureLevels]
    intro i h
    simp only [npArangeStep2, List.get_eq_getElem, List.getElem_map,
      List.getElem_range]
    push_cast
    ring
  · have := Int.floor_le (pmin / 2)
    push_cast
    linarith
  · have := Int.lt_floor_add_one (pmax / 2)
    push_cast
    linarith

/-- Witness for C3 at the spec's observed range [1008.3, 1019.7]: the
first produced level is `floor(1008.3/2)*2`. -/
theorem pressure_levels_arithmetic_progression_witness :
    (0 : ℚ) ≤ 10083/10 ∧ (10083/10 : ℚ) ≤ 10197/10 ∧
    (pressureLevels (10083/10) (10197/10))[0]? =
      some (⌊(10083/10 : ℚ) / 2⌋ * 2) :=
  ⟨by norm_num, by norm_num,
   (pressure_levels_arithmetic_progression (10083/10) (10197/10)
      (by norm_num) (by norm_num)).1⟩

/-- Embedding of `np.mean(xs)`: the arithmetic mean of a sequence. -/
def npMean (xs : List ℚ) : ℚ := xs.sum / xs.length

/-- Embedding of `scipy.interpolate.griddata` with method linear and `fill_value=fv`,
over an abstract linear interpolant: a grid node inside the stations'
convex hull carries the interpolated value (`interp i = some v`), and a
node where linear interpolation is undefined (outside the hull,
`interp i = none`, NaN in scipy) is assigned the finite fill value. -/
def griddataLinearFill (interp : ℕ → Option ℚ) (fv : ℚ) : ℕ → Option ℚ :=
  fun i => some ((interp i).getD fv)

/-- The overlay grid of `create_pressure_contour_overlay`
(`pressure_map.py` lines 86-98): linear interpolation with
`fill_value=np.mean(pressures)`, after which every node still NaN is
replaced by the nearest-neighbor value. -/
def overlayGridValue (interp : ℕ → Option ℚ) (nearest : ℕ → ℚ)
    (ps : List ℚ) : ℕ → Option ℚ :=
  fun i =>
    match griddataLinearFill interp (npMean ps) i with
    | some v => some v
    | none => some (nearest i)

/-- The regional grid of
`create_combined_weather_map_centered_rockville` (`main.py` lines
365-368): linear interpolation with `fill_value=np.nan` and no refill,
so outside-hull nodes stay undefined. -/
def mainMapGridValue (interp : ℕ → Option ℚ) : ℕ → Option ℚ := interp

/-- A linear interpolant undefined at every node: all nodes lie outside
the stations' convex hull. -/
def interpAllOutside : ℕ → Option ℚ := fun _ => none

/-- A nearest-neighbor extrapolant whose value is 1010 everywhere. -/
def nearestDemo : ℕ → ℚ := fun _ => 1010

/-- Two station pressures with mean 1013. -/
def demoPressures : List ℚ := [1012, 1014]

/-- C8 counterexample: at a node outside the convex hull the overlay
assigns the mean of all station pressures (1013, the `fill_value`), not
the nearest-neighbor value (1010); and on the regional main-map path
the same node stays undefined altogether. -/
theorem outside_hull_filled_with_mean_not_nearest :
    overlayGridValue interpAllOutside nearestDemo demoPressures 0 =
      some 1013 ∧
    nearestDemo 0 = 1010 ∧ (1013 : ℚ) ≠ 1010 ∧
    mainMapGridValue interpAllOutside 0 = none := by
  refine ⟨?_, rfl, by norm_num, rfl⟩
  have hm : npMean demoPressures = 1013 := by
    rw [npMean, demoPressures]
    norm_num
  rw [overlayGridValue, griddataLinearFill, hm]
  rfl

/-- C8 amended: every node of the continental overlay grid is defined:
an inside-hull node carries its linear value, and an outside-hull node
(NaN under pure linear interpolation) is filled with the mean of the
station pressures — the `fill_value` — rather than by nearest-neighbor
extrapolation; the nearest-neighbor pass only reaches nodes that are
still NaN after the mean fill. -/
theorem overlay_grid_totally_defined_via_mean_fill
    (interp : ℕ → Option ℚ) (nearest : ℕ → ℚ) (ps : List ℚ) (i : ℕ) :
    (overlayGridValue interp nearest ps i).isSome = true ∧
    (∀ v, interp i = some v → overlayGridValue interp nearest ps i = some v) ∧
    (interp i = none →
      overlayGridValue interp nearest ps i = some (npMean ps)) := by
  refine ⟨?_, ?_, ?_⟩
  · rw [overlayGridValue, griddataLinearFill]
    rfl
  · intro v hv
    rw [overlayGridValue, griddataLinearFill, hv]
    rfl
  · intro hv
    rw [overlayGridValue, griddataLinearFill, hv]
    rfl

/-- Witness for C8: with every node outside the hull, node 5 of the
overlay grid equals the mean of the input pressures. -/
theorem overlay_grid_totally_defined_via_mean_fill_witness :
    overlayGridValue interpAllOutside nearestDemo demoPressures 5 =
      some (npMean demoPressures) :=
  (overlay_grid_totally_defined_via_mean_fill interpAllOutside nearestDemo
    demoPressures 5).2.2 rfl

/-- One raw reading of the per-station time series consumed by the
station-deduplication steps of the fetchers: a station identifier, a
timestamp (the `valid` column, abstracted to an ordered number) and an
observed value. -/
structure Reading where
  station : String
  valid : ℕ
  val : ℚ
  deriving DecidableEq, Repr

/-- Embedding of `df.drop_duplicates(subset=['station'], keep='last')`: a row is kept
iff no later row carries the same station identifier; kept rows stay in
frame order. -/
def keepLastPerStation : List Reading → List Reading
  | [] => []
  | r :: rest =>
    if rest.any (fun x => x.station == r.station) then keepLastPerStation rest
    else r :: keepLastPerStation rest

/-- The lexicographic (station, valid) order of
`df.sort_values(['station', 'valid'])`. -/
def readingLE (a b : Reading) : Prop :=
  a.station < b.station ∨ (a.station = b.station ∧ a.valid ≤ b.valid)

instance : DecidableRel readingLE := fun a b =>
  inferInstanceAs
    (Decidable (a.station < b.station ∨ (a.station = b.station ∧ a.valid ≤ b.valid)))

/-- The Maryland reduction of `_process_iowa_mesonet_data` lines
145-151: sort by (station, valid), then keep the last row per station. -/
def mdUnique (rows : List Reading) : List Reading :=
  keepLastPerStation (List.insertionSort readingLE rows)

/-- The ASOS reduction of `_process_asos_data` line 931: keep the last
row per station in file order, without sorting. -/
def asosUnique (rows : List Reading) : List Reading :=
  keepLastPerStation rows

/-- The chronologically later reading for station XYZ, first in file
order. -/
def asosRowLate : Reading := ⟨"XYZ", 2, 1015⟩

/-- The chronologically earlier reading for station XYZ, last in file
order. -/
def asosRowEarly : Reading := ⟨"XYZ", 1, 1001⟩

/-- C10: on a file whose rows are not in chronological order, the ASOS
path keeps the last row in file order — here the chronologically
earlier reading — while the Maryland path, which sorts by
(station, valid) first, keeps the most recent reading as the claim and
the code's own comment (`keep most recent reading`) require. -/
theorem asos_keeps_file_order_last_not_most_recent :
    asosUnique [asosRowLate, asosRowEarly] = [asosRowEarly] ∧
    mdUnique [asosRowLate, asosRowEarly] = [asosRowLate] ∧
    asosRowEarly.valid < asosRowLate.valid := by
  refine ⟨?_, ?_, by decide⟩
  · decide
  · have hno : ¬ readingLE asosRowLate asosRowEarly := by
      rw [readingLE]
      rintro (h | ⟨-, h⟩)
      · exact lt_irrefl _ h
      · simp [asosRowLate, asosRowEarly] at h
    rw [mdUnique]
    have hsort : List.insertionSort readingLE [asosRowLate, asosRowEarly] =
        [asosRowEarly, asosRowLate] := by
      simp [List.insertionSort, List.orderedInsert, hno]
    rw [hsort]
    simp [keepLastPerStation, asosRowLate, asosRowEarly]

end MesonetMap
